import Mathlib

/-!
Shallow embedding of `src/sales.py` (Superstore sales dashboard).

The script is a straight-line pipeline: read a CSV, drop rows with any
missing field, derive year/month, group by (year, month) and sum sales,
run an additive period-12 seasonal decomposition on the monthly series,
build a fixed set of chart specifications, and serve them.

Pandas/statsmodels semantics embedded here:
  * `df.dropna()` keeps exactly the rows whose every column is non-null.
  * `df.groupby(keys)[col].sum().reset_index()` produces one row per
    distinct key, with keys sorted ascending, values summed per group.
  * `seasonal_decompose(x, model='additive', period=12)` (statsmodels,
    two-sided default, `extrapolate_trend=0`):
      - raises `ValueError` when `len(x) < 2 * period`;
      - trend is the centered moving average with filter
        `[1/2, 1, ..., 1, 1/2] / 12` (13 taps), undefined (NaN) at the
        first 6 and last 6 positions;
      - seasonal is the per-position-in-cycle nan-mean of the detrended
        series, re-centered to mean zero over one cycle, tiled over the
        whole index (defined everywhere);
      - resid = observed - trend - seasonal (NaN exactly where trend is).
  * `series.dropna()` keeps the (index, value) pairs whose value is
    defined.
Sales amounts are modelled as exact rationals.
-/

namespace Superstore

/-- A calendar date (pandas timestamp restricted to year/month/day). -/
structure Date where
  year : Nat
  month : Nat
  day : Nat
  deriving DecidableEq, Repr

/-- One raw CSV row: every field may be null (missing).  The columns are the
ones the script touches: Order Date, Category, Sub-Category, Region,
Product Name, Sales, Profit, Quantity. -/
structure RawRecord where
  orderDate : Option Date
  category : Option String
  subCategory : Option String
  region : Option String
  productName : Option String
  sales : Option ℚ
  profit : Option ℚ
  quantity : Option ℚ
  deriving DecidableEq, Repr

/-- A cleaned record: all fields present (the shape of a row surviving
`df.dropna()`). -/
structure Record where
  orderDate : Date
  category : String
  subCategory : String
  region : String
  productName : String
  sales : ℚ
  profit : ℚ
  quantity : ℚ
  deriving DecidableEq, Repr

/-- Whether a raw row has at least one null field. -/
def hasNull (r : RawRecord) : Bool :=
  r.orderDate.isNone || r.category.isNone || r.subCategory.isNone ||
  r.region.isNone || r.productName.isNone || r.sales.isNone ||
  r.profit.isNone || r.quantity.isNone

/-- Conversion of a fully populated raw row to a cleaned record;
`none` when any field is null. -/
def toComplete (r : RawRecord) : Option Record := do
  let d ← r.orderDate
  let c ← r.category
  let sc ← r.subCategory
  let re ← r.region
  let p ← r.productName
  let s ← r.sales
  let pr ← r.profit
  let q ← r.quantity
  pure ⟨d, c, sc, re, p, s, pr, q⟩

/-- Embeds a cleaned record back as a raw row (all fields present). -/
def toRaw (r : Record) : RawRecord :=
  ⟨some r.orderDate, some r.category, some r.subCategory, some r.region,
   some r.productName, some r.sales, some r.profit, some r.quantity⟩

/-- Line 12, `df = df.dropna()`: the cleaned record set. -/
def clean (input : List RawRecord) : List Record :=
  input.filterMap toComplete

/-- The pandas `groupby(key)[val].sum().reset_index()` idiom: one row per
distinct key present in `rs`, keys sorted ascending by `le` (pandas sorts
group keys by default), value summed over the group. -/
def groupSum {κ : Type} [DecidableEq κ] (le : κ → κ → Prop) [DecidableRel le]
    (key : Record → κ) (val : Record → ℚ) (rs : List Record) : List (κ × ℚ) :=
  (List.insertionSort le ((rs.map key).dedup)).map
    (fun k => (k, ((rs.filter (fun r => key r = k)).map val).sum))

/-- The (Year, Month) grouping key (lines 13-14 derive these from
Order Date). -/
def monthKey (r : Record) : Nat × Nat := (r.orderDate.year, r.orderDate.month)

/-- Lexicographic order on (year, month) keys: chronological order of
months. -/
def keyLe (a b : Nat × Nat) : Prop := a.1 < b.1 ∨ (a.1 = b.1 ∧ a.2 ≤ b.2)

instance : DecidableRel keyLe := fun a b => by
  unfold keyLe; exact inferInstance

instance : IsTrans (Nat × Nat) keyLe :=
  ⟨by rintro a b c (h | ⟨h, h2⟩) (g | ⟨g, g2⟩) <;> unfold keyLe <;> omega⟩

instance : IsTotal (Nat × Nat) keyLe :=
  ⟨by intro a b; unfold keyLe; omega⟩

/-- One row of `df_monthly_sales` (line 17-18): year, month, summed sales,
synthesized first-of-month date. -/
structure MonthlyRow where
  year : Nat
  month : Nat
  sales : ℚ
  date : Date
  deriving DecidableEq, Repr

/-- Lines 17-18: group the cleaned data by (Year, Month), sum Sales, and
attach the first-of-month date. -/
def df_monthly_sales (rs : List Record) : List MonthlyRow :=
  (groupSum keyLe monthKey Record.sales rs).map
    (fun ks => ⟨ks.1.1, ks.1.2, ks.2, ⟨ks.1.1, ks.1.2, 1⟩⟩)

/-- The monthly sales series handed to the decomposition
(`df_monthly_sales['Sales']`). -/
def salesSeries (rs : List Record) : List ℚ :=
  (df_monthly_sales rs).map MonthlyRow.sales

/-- The monthly date column (`df_monthly_sales['Date']`). -/
def datesSeries (rs : List Record) : List Date :=
  (df_monthly_sales rs).map MonthlyRow.date

/-!
Seasonal decomposition (statsmodels `seasonal_decompose`, additive model,
period 12, two-sided centered moving average, no trend extrapolation).
-/

/-- The 13-tap centered filter for even period 12:
`[1/2, 1, ..., 1, 1/2]` (divided by 12 in `trendVal`). -/
def filtWeight (j : Nat) : ℚ := if j = 0 ∨ j = 12 then 1/2 else 1

/-- The centered moving-average value at position `i` (meaningful when
the 13-tap window fits, i.e. `6 ≤ i` and `i + 6 < length`). -/
def trendVal (x : List ℚ) (i : Nat) : ℚ :=
  (∑ j ∈ Finset.range 13, filtWeight j * x.getD (i - 6 + j) 0) / 12

/-- The trend component at position `i`: `none` (NaN) where the window does
not fit — the first 6 and last 6 positions. -/
def trendAt (x : List ℚ) (i : Nat) : Option ℚ :=
  if 6 ≤ i ∧ i + 6 < x.length then some (trendVal x i) else none

/-- The detrended value `x[i] - trend[i]` where the trend is defined. -/
def detrendedVal (x : List ℚ) (i : Nat) : ℚ := x.getD i 0 - trendVal x i

/-- The positions of residue class `j` (mod 12) at which the detrended
series is defined (the nan-mean in `seasonal_mean` skips the NaN ends). -/
def classPositions (L j : Nat) : List Nat :=
  (List.range L).filter (fun i => i % 12 = j && 6 ≤ i && i + 6 < L)

/-- The raw per-position-in-cycle average of the detrended series
(`seasonal_mean` in statsmodels). -/
def rawPeriodAverage (x : List ℚ) (j : Nat) : ℚ :=
  let ps := classPositions x.length j
  ((ps.map (detrendedVal x)).sum) / (ps.length : ℚ)

/-- The period averages re-centered to mean zero over one cycle
(`period_averages -= np.mean(period_averages)`). -/
def periodAverage (x : List ℚ) (j : Nat) : ℚ :=
  rawPeriodAverage x j - (∑ k ∈ Finset.range 12, rawPeriodAverage x k) / 12

/-- The seasonal component at position `i`: the period averages tiled over
the whole index — defined everywhere. -/
def seasonalAt (x : List ℚ) (i : Nat) : ℚ := periodAverage x (i % 12)

/-- The residual component at position `i`:
`observed - trend - seasonal`, NaN exactly where the trend is. -/
def residAt (x : List ℚ) (i : Nat) : Option ℚ :=
  (trendAt x i).map (fun t => x.getD i 0 - t - seasonalAt x i)

/-- Line 24, `decomposition.trend.dropna()`: the (index, value) pairs at
which the trend is defined. -/
def trendSeries (x : List ℚ) : List (Nat × ℚ) :=
  (List.range x.length).filterMap (fun i => (trendAt x i).map (fun t => (i, t)))

/-- Line 25, `decomposition.seasonal.dropna()`: the seasonal component has
no NaN, so all positions survive. -/
def seasonalSeries (x : List ℚ) : List (Nat × ℚ) :=
  (List.range x.length).map (fun i => (i, seasonalAt x i))

/-- Line 26, `decomposition.resid.dropna()`: the (index, value) pairs at
which the residual is defined. -/
def residSeries (x : List ℚ) : List (Nat × ℚ) :=
  (List.range x.length).filterMap (fun i => (residAt x i).map (fun r => (i, r)))

/-- The three component series after `dropna()`. -/
structure DecompResult where
  trend : List (Nat × ℚ)
  seasonal : List (Nat × ℚ)
  resid : List (Nat × ℚ)
  deriving DecidableEq, Repr

/-- The error message statsmodels raises when the series is too short. -/
def decompErr : String :=
  "x must have 2 complete cycles requires 24 observations"

/-- Line 21, `seasonal_decompose(x, model='additive', period=12)`:
raises `ValueError` when fewer than `2 * period` observations exist,
otherwise returns the three components. -/
def seasonal_decompose (x : List ℚ) : Except String DecompResult :=
  if x.length < 2 * 12 then .error decompErr
  else .ok ⟨trendSeries x, seasonalSeries x, residSeries x⟩

/-!
Chart construction (lines 32-87) and layout (lines 90-146).  Each chart
specification is modelled by the data series the plotting call receives;
styling constants are omitted, data flow is kept.
-/

/-- Lexicographic order on (Region, Category) string pairs, the ascending
key order pandas uses for the heatmap groupby (line 61). -/
def pairStrLe (a b : String × String) : Prop :=
  a.1 < b.1 ∨ (a.1 = b.1 ∧ a.2 ≤ b.2)

instance : DecidableRel pairStrLe := fun a b => by
  unfold pairStrLe; exact inferInstance

/-- Descending order by summed sales, used by
`sort_values(by='Sales', ascending=False)` (line 52). -/
def salesDesc (a b : String × ℚ) : Prop := b.2 ≤ a.2

instance : DecidableRel salesDesc := fun a b => by
  unfold salesDesc; exact inferInstance

instance : IsTrans (String × ℚ) salesDesc :=
  ⟨fun _ _ _ h g => le_trans g h⟩

instance : IsTotal (String × ℚ) salesDesc :=
  ⟨fun a b => by unfold salesDesc; exact le_total b.2 a.2⟩

/-- Line 52: sum sales per product name, sort descending by sales, keep the
first 10 rows. -/
def top_products (rs : List Record) : List (String × ℚ) :=
  (List.insertionSort salesDesc
    (groupSum (· ≤ ·) Record.productName Record.sales rs)).take 10

/-- The x/y data of a `go.Scatter` component trace (lines 72, 78, 84):
`x = df_monthly_sales['Date'][len(df_monthly_sales)-len(comp):]` zipped
positionally with `y = comp` — plotly pairs x and y by position,
ignoring the pandas index of `comp`. -/
def componentPlotData (dates : List Date) (comp : List (Nat × ℚ)) :
    List (Date × ℚ) :=
  (dates.drop (dates.length - comp.length)).zip (comp.map Prod.snd)

/-- The data series of every figure of the dashboard, plus the static list
of chart ids of the layout tree. -/
structure Dashboard where
  figCategory : List (String × ℚ)
  figRegion : List (String × ℚ)
  figTrendYearly : List (Nat × ℚ)
  figSubcategory : List (String × ℚ)
  figProfitSales : List (ℚ × ℚ × ℚ × String)
  figTopProducts : List (String × ℚ)
  figQuantityDist : List ℚ
  figHeatmap : List ((String × String) × ℚ)
  figMonthlyTrend : List (Nat × Nat × ℚ)
  figTrendComp : List (Date × ℚ)
  figSeasonalComp : List (Date × ℚ)
  figResidualComp : List (Date × ℚ)
  layoutIds : List String
  deriving DecidableEq, Repr

/-- The dcc.Graph ids in layout order (lines 90-146). -/
def layoutGraphIds : List String :=
  ["sales-by-category", "profit-by-region", "sales-trend",
   "sales-by-subcategory", "profit-vs-sales", "top-products",
   "order-quantity-dist", "sales-heatmap", "monthly-sales-trend",
   "trend-component", "seasonality-component", "residual-component"]

/-- Lines 32-146: build every figure from the cleaned records and the
decomposition components, and assemble the static layout. -/
def buildDashboard (rs : List Record) (dec : DecompResult) : Dashboard where
  figCategory := rs.map (fun r => (r.category, r.sales))
  figRegion := rs.map (fun r => (r.region, r.profit))
  figTrendYearly := groupSum (· ≤ ·) (fun r => r.orderDate.year) Record.sales rs
  figSubcategory := rs.map (fun r => (r.subCategory, r.sales))
  figProfitSales := rs.map (fun r => (r.sales, r.profit, r.quantity, r.productName))
  figTopProducts := top_products rs
  figQuantityDist := rs.map Record.quantity
  figHeatmap := groupSum pairStrLe (fun r => (r.region, r.category)) Record.sales rs
  figMonthlyTrend := (groupSum keyLe monthKey Record.sales rs).map
    (fun ks => (ks.1.1, ks.1.2, ks.2))
  figTrendComp := componentPlotData (datesSeries rs) dec.trend
  figSeasonalComp := componentPlotData (datesSeries rs) dec.seasonal
  figResidualComp := componentPlotData (datesSeries rs) dec.resid
  layoutIds := layoutGraphIds

/-- The whole construction phase of the script (lines 9-146): clean,
aggregate, decompose, build charts.  An exception raised by
`seasonal_decompose` propagates uncaught: no dashboard is built. -/
def runScript (input : List RawRecord) : Except String Dashboard :=
  let df := clean input
  match seasonal_decompose (salesSeries df) with
  | .error e => .error e
  | .ok dec => .ok (buildDashboard df dec)

/-- Lines 149-150: the server starts (and serves the page) only when the
construction phase finished without an exception. -/
def servedPage (input : List RawRecord) : Option Dashboard :=
  (runScript input).toOption

/-!
Concrete fixture inputs used to instantiate the theorems.
-/

/-- A fully populated raw row for month number `i` (counted from
January 2014), one transaction of 100 per month. -/
def sampleRaw (i : Nat) : RawRecord :=
  ⟨some ⟨2014 + i / 12, i % 12 + 1, 5⟩, some "Furniture", some "Chairs",
   some "West", some "Desk", some 100, some 10, some 1⟩

/-- A 24-month fixture table (January 2014 - December 2015), one
transaction per month. -/
def sampleInput : List RawRecord := (List.range 24).map sampleRaw

/-- A constant monthly series of length 24. -/
def z24 : List ℚ := List.replicate 24 0

/-- A cleaned record for product name `p` with sales amount `s`. -/
def mkProductRec (p : String) (s : ℚ) : Record :=
  ⟨⟨2014, 1, 1⟩, "Furniture", "Chairs", "West", p, s, 10, 1⟩

/-- A cleaned record set with 12 distinct product names. -/
def sampleProducts : List Record :=
  ["Pa", "Pb", "Pc", "Pd", "Pe", "Pf", "Pg", "Ph", "Pi", "Pj", "Pk", "Pl"].map
    (fun p => mkProductRec p 100)

/-- A cleaned record set with 3 distinct product names over 4 records. -/
def fewProducts : List Record :=
  [mkProductRec "Pa" 5, mkProductRec "Pb" 7, mkProductRec "Pc" 9,
   mkProductRec "Pa" 11]

/-!
Helper lemmas.
-/

/-- Splitting a mapped sum along a Boolean filter. -/
theorem sum_map_filter_split {α : Type} (p : α → Bool) (f : α → ℚ) :
    ∀ l : List α,
      ((l.filter p).map f).sum + ((l.filter (fun a => !p a)).map f).sum =
        (l.map f).sum := by
  intro l
  induction l with
  | nil => simp
  | cons a t ih =>
    by_cases h : p a <;> simp [h, ← ih] <;> ring

/-- Summing group sums over a duplicate-free key list that covers every
element recovers the total sum. -/
theorem sum_over_groups {α κ : Type} [DecidableEq κ] (key : α → κ) (f : α → ℚ) :
    ∀ (ks : List κ) (l : List α), ks.Nodup → (∀ a ∈ l, key a ∈ ks) →
      (ks.map (fun k => ((l.filter (fun a => key a = k)).map f).sum)).sum =
        (l.map f).sum := by
  intro ks
  induction ks with
  | nil =>
    intro l _ hcov
    have : l = [] := by
      cases l with
      | nil => rfl
      | cons a t => exact absurd (hcov a (by simp)) (by simp)
    simp [this]
  | cons k ks ih =>
    intro l hnd hcov
    have htail :
        (ks.map (fun k' => ((l.filter (fun a => key a = k')).map f).sum)).sum =
          ((l.filter (fun a => !(key a = k : Bool))).map f).sum := by
      have hrw :
          ks.map (fun k' => ((l.filter (fun a => key a = k')).map f).sum) =
            ks.map (fun k' =>
              (((l.filter (fun a => !(key a = k : Bool))).filter
                  (fun a => key a = k')).map f).sum) := by
        apply List.map_congr_left
        intro k' hk'
        have hne : k' ≠ k := by
          rintro rfl; exact (List.nodup_cons.mp hnd).1 hk'
        have hlist : l.filter (fun a => key a = k') =
            (l.filter (fun a => !(key a = k : Bool))).filter
              (fun a => key a = k') := by
          rw [List.filter_filter]
          apply List.filter_congr
          intro a _
          by_cases h : key a = k'
          · simp [h, hne]
          · simp [h]
        rw [hlist]
      rw [hrw]
      apply ih
      · exact (List.nodup_cons.mp hnd).2
      · intro a ha
        have hak : key a ∈ k :: ks := hcov a (List.mem_of_mem_filter ha)
        have : ¬(key a = k) := by
          have := List.of_mem_filter ha
          simpa using this
        simpa [this] using hak
    calc ((k :: ks).map
            (fun k' => ((l.filter (fun a => key a = k')).map f).sum)).sum
        = ((l.filter (fun a => key a = k)).map f).sum +
            (ks.map (fun k' => ((l.filter (fun a => key a = k')).map f).sum)).sum := by
          simp
      _ = ((l.filter (fun a => key a = k)).map f).sum +
            ((l.filter (fun a => !(key a = k : Bool))).map f).sum := by
          rw [htail]
      _ = (l.map f).sum := sum_map_filter_split _ f l

/-- The group keys of `groupSum` are the sorted deduplicated keys. -/
theorem groupSum_map_fst {κ : Type} [DecidableEq κ] (le : κ → κ → Prop)
    [DecidableRel le] (key : Record → κ) (val : Record → ℚ) (rs : List Record) :
    (groupSum le key val rs).map Prod.fst =
      List.insertionSort le ((rs.map key).dedup) := by
  simp [groupSum, List.map_map, Function.comp_def]

/-- Conservation of the summed measure under `groupSum`. -/
theorem groupSum_sum {κ : Type} [DecidableEq κ] (le : κ → κ → Prop)
    [DecidableRel le] (key : Record → κ) (val : Record → ℚ) (rs : List Record) :
    ((groupSum le key val rs).map Prod.snd).sum = (rs.map val).sum := by
  have hnd : (List.insertionSort le ((rs.map key).dedup)).Nodup :=
    (List.perm_insertionSort le _).nodup_iff.mpr (List.nodup_dedup _)
  have hcov : ∀ r ∈ rs, key r ∈ List.insertionSort le ((rs.map key).dedup) := by
    intro r hr
    rw [(List.perm_insertionSort le _).mem_iff, List.mem_dedup]
    exact List.mem_map_of_mem key hr
  have := sum_over_groups key val (List.insertionSort le ((rs.map key).dedup))
    rs hnd hcov
  rw [← this]
  simp [groupSum, List.map_map, Function.comp_def]

/-- The surviving indices of a `dropna`-style `filterMap` are the indices
at which the optional value is defined. -/
theorem map_fst_filterMap_indexed {β : Type} (f : Nat → Option β) :
    ∀ l : List Nat,
      ((l.filterMap (fun i => (f i).map (fun v => (i, v)))).map Prod.fst) =
        l.filter (fun i => (f i).isSome) := by
  intro l
  induction l with
  | nil => rfl
  | cons a t ih =>
    cases h : f a <;> simp [List.filterMap_cons, h, ih, List.filter_cons]

/-- Filtering the indices `0, ..., L-1` down to the window
`6 ≤ i ∧ i + 6 < L` leaves exactly the indices `6, ..., L - 7`. -/
theorem filter_range_window (L : Nat) (h : 12 ≤ L) :
    (List.range L).filter (fun i => decide (6 ≤ i ∧ i + 6 < L)) =
      List.range' 6 (L - 12) := by
  have h1 : List.range L = List.range' 0 6 ++ (List.range' 6 (L - 12) ++
      List.range' (6 + (L - 12)) 6) := by
    rw [List.range'_append_1, List.range'_append_1, List.range_eq_range']
    congr 1
    omega
  rw [h1, List.filter_append, List.filter_append]
  have h2 : (List.range' 0 6).filter (fun i => decide (6 ≤ i ∧ i + 6 < L)) = [] := by
    rw [List.filter_eq_nil_iff]
    intro a ha
    rw [List.mem_range'_1] at ha
    simp only [decide_eq_true_eq]
    omega
  have h3 : (List.range' 6 (L - 12)).filter
      (fun i => decide (6 ≤ i ∧ i + 6 < L)) = List.range' 6 (L - 12) := by
    rw [List.filter_eq_self]
    intro a ha
    rw [List.mem_range'_1] at ha
    simp only [decide_eq_true_eq]
    omega
  have h4 : (List.range' (6 + (L - 12)) 6).filter
      (fun i => decide (6 ≤ i ∧ i + 6 < L)) = [] := by
    rw [List.filter_eq_nil_iff]
    intro a ha
    rw [List.mem_range'_1] at ha
    simp only [decide_eq_true_eq]
    omega
  rw [h2, h3, h4]
  simp

/-- A raw row converts to a cleaned record exactly when it has no null
field. -/
theorem toComplete_isSome (r : RawRecord) :
    (toComplete r).isSome = !hasNull r := by
  obtain ⟨d, c, sc, re, p, s, pr, q⟩ := r
  cases d <;> cases c <;> cases sc <;> cases re <;> cases p <;> cases s <;>
    cases pr <;> cases q <;> rfl

/-- Converting a raw row to a cleaned record and back is the identity. -/
theorem toRaw_toComplete {r : RawRecord} {c : Record}
    (h : toComplete r = some c) : toRaw c = r := by
  obtain ⟨d, c1, sc, re, p, s, pr, q⟩ := r
  cases d <;> cases c1 <;> cases sc <;> cases re <;> cases p <;> cases s <;>
    cases pr <;> cases q <;>
    simp only [toComplete, Option.bind_eq_bind, Option.some_bind,
      Option.none_bind, Option.pure_def, Option.some.injEq, reduceCtorEq] at h <;>
    first
      | exact absurd h (by simp)
      | (rw [← h]; rfl)

/-- The cleaned record set is exactly the null-free rows of the input. -/
theorem clean_eq_filter (input : List RawRecord) :
    (clean input).map toRaw = input.filter (fun r => !hasNull r) := by
  induction input with
  | nil => rfl
  | cons r t ih =>
    rw [clean, List.filterMap_cons]
    cases h : toComplete r with
    | none =>
      have hn : (!hasNull r) = false := by
        rw [← toComplete_isSome, h]; rfl
      rw [List.filter_cons, hn]
      simpa [clean] using ih
    | some c =>
      have hn : (!hasNull r) = true := by
        rw [← toComplete_isSome, h]; rfl
      rw [List.filter_cons, hn, List.map_cons, toRaw_toComplete h]
      simpa [clean] using congrArg (List.cons r) ih

/-- C8: the cleaned record set contains exactly the input rows with no
null field (a row is dropped when any column is null), so its row count is
the input row count minus the number of rows with at least one null
field. -/
theorem clean_spec (input : List RawRecord) :
    (clean input).map toRaw = input.filter (fun r => !hasNull r) ∧
    (clean input).length = input.length - input.countP hasNull := by
  refine ⟨clean_eq_filter input, ?_⟩
  have h1 : (clean input).length = ((clean input).map toRaw).length :=
    (List.length_map _ _).symm
  rw [h1, clean_eq_filter input, ← List.countP_eq_length_filter]
  have h2 : input.countP (fun r => !hasNull r) =
      input.countP (fun r => ¬hasNull r) := by
    apply List.countP_congr
    intro a _
    cases h : hasNull a <;> simp [h]
  have h3 := @List.length_eq_countP_add_countP _ hasNull input
  omega

/-- C7: the monthly aggregate has one row per distinct (year, month) pair
of the cleaned data, each row's date is the first day of its month, and
the rows are sorted chronologically (ascending by year, then month). -/
theorem df_monthly_sales_spec (rs : List Record) :
    ((df_monthly_sales rs).map (fun m => (m.year, m.month))).Nodup ∧
    (∀ k, k ∈ (df_monthly_sales rs).map (fun m => (m.year, m.month)) ↔
      k ∈ rs.map monthKey) ∧
    (∀ m ∈ df_monthly_sales rs, m.date = ⟨m.year, m.month, 1⟩) ∧
    ((df_monthly_sales rs).map (fun m => (m.year, m.month))).Sorted keyLe := by
  have hkeys : (df_monthly_sales rs).map (fun m => (m.year, m.month)) =
      List.insertionSort keyLe ((rs.map monthKey).dedup) := by
    rw [← groupSum_map_fst keyLe monthKey Record.sales rs,
      df_monthly_sales, List.map_map]
    rfl
  refine ⟨?_, ?_, ?_, ?_⟩
  · rw [hkeys]
    exact (List.perm_insertionSort keyLe _).nodup_iff.mpr (List.nodup_dedup _)
  · intro k
    rw [hkeys, (List.perm_insertionSort keyLe _).mem_iff, List.mem_dedup]
  · intro m hm
    rw [df_monthly_sales] at hm
    obtain ⟨ks, _, rfl⟩ := List.mem_map.mp hm
    rfl
  · rw [hkeys]
    exact List.sorted_insertionSort keyLe _

/-- C4: the sum of the per-month aggregated sales equals the sum of the
sales column over the whole cleaned record set. -/
theorem monthly_sales_conservation (rs : List Record) :
    ((df_monthly_sales rs).map MonthlyRow.sales).sum = (rs.map Record.sales).sum := by
  rw [← groupSum_sum keyLe monthKey Record.sales rs, df_monthly_sales,
    List.map_map]
  rfl

/-- C2: for a series of length `L ≥ 24` and period 12, the trend and
residual series after dropping undefined entries keep exactly the index
positions `6, ..., L - 7` (6 dropped at each end, length `L - 12`), and
the seasonal series keeps all `L` positions. -/
theorem decomposition_lengths (x : List ℚ) (h : 24 ≤ x.length) :
    (trendSeries x).map Prod.fst = List.range' 6 (x.length - 12) ∧
    (trendSeries x).length = x.length - 12 ∧
    (residSeries x).map Prod.fst = List.range' 6 (x.length - 12) ∧
    (residSeries x).length = x.length - 12 ∧
    (seasonalSeries x).length = x.length := by
  have h12 : 12 ≤ x.length := by omega
  have htr : (trendSeries x).map Prod.fst = List.range' 6 (x.length - 12) := by
    rw [trendSeries, map_fst_filterMap_indexed]
    have hpred : ∀ i ∈ List.range x.length,
        ((trendAt x i).isSome) = decide (6 ≤ i ∧ i + 6 < x.length) := by
      intro i _
      by_cases hc : 6 ≤ i ∧ i + 6 < x.length <;> simp [trendAt, hc]
    rw [List.filter_congr hpred, filter_range_window _ h12]
  have hres : (residSeries x).map Prod.fst = List.range' 6 (x.length - 12) := by
    rw [residSeries, map_fst_filterMap_indexed]
    have hpred : ∀ i ∈ List.range x.length,
        ((residAt x i).isSome) = decide (6 ≤ i ∧ i + 6 < x.length) := by
      intro i _
      by_cases hc : 6 ≤ i ∧ i + 6 < x.length <;> simp [residAt, trendAt, hc]
    rw [List.filter_congr hpred, filter_range_window _ h12]
  refine ⟨htr, ?_, hres, ?_, ?_⟩
  · have := congrArg List.length htr
    simpa using this
  · have := congrArg List.length hres
    simpa using this
  · simp [seasonalSeries]

/-- C2 witness: the 24-month constant series keeps trend/residual indices
6..17 and all 24 seasonal positions. -/
theorem decomposition_lengths_witness :
    24 ≤ z24.length ∧ (trendSeries z24).length = z24.length - 12 ∧
    (residSeries z24).length = z24.length - 12 ∧
    (seasonalSeries z24).length = z24.length :=
  ⟨by decide, (decomposition_lengths z24 (by decide)).2.1,
   (decomposition_lengths z24 (by decide)).2.2.2.1,
   (decomposition_lengths z24 (by decide)).2.2.2.2⟩

/-- C3: wherever trend and residual are defined (the seasonal component is
defined everywhere), trend + seasonal + residual reconstructs the original
series exactly — the residual is by construction
original - trend - seasonal. -/
theorem decomposition_roundtrip (x : List ℚ) (i : Nat) (t r : ℚ)
    (ht : trendAt x i = some t) (hr : residAt x i = some r) :
    t + seasonalAt x i + r = x.getD i 0 := by
  rw [residAt, ht, Option.map_some'] at hr
  have : r = x.getD i 0 - t - seasonalAt x i := (Option.some.inj hr).symm
  rw [this]
  ring

/-- C3 witness: the reconstruction identity instantiated at position 6 of
the 24-month constant series. -/
theorem decomposition_roundtrip_witness :
    trendVal z24 6 + seasonalAt z24 6 +
      (z24.getD 6 0 - trendVal z24 6 - seasonalAt z24 6) = z24.getD 6 0 :=
  decomposition_roundtrip z24 6 _ _ rfl rfl

/-- C9: the seasonal component is exactly periodic with period 12 — it is
the tiled per-position-in-cycle average, so it is determined by its first
12 values. -/
theorem seasonal_periodic (x : List ℚ) (i : Nat) (_h : i + 12 < x.length) :
    seasonalAt x i = seasonalAt x (i + 12) ∧
    seasonalAt x i = seasonalAt x (i % 12) := by
  constructor <;> · rw [seasonalAt, seasonalAt]; congr 1; omega

/-- C9 witness: periodicity instantiated at position 0 of the 24-month
constant series. -/
theorem seasonal_periodic_witness :
    seasonalAt z24 0 = seasonalAt z24 (0 + 12) ∧
    seasonalAt z24 0 = seasonalAt z24 (0 % 12) :=
  seasonal_periodic z24 0 (by decide)

/-- C5: the top-10-products aggregate is sorted descending by summed
sales; it has exactly 10 rows when the cleaned data has at least 10
distinct product names, and one row per distinct product name
otherwise. -/
theorem top_products_spec (rs : List Record) :
    (top_products rs).Sorted salesDesc ∧
    (10 ≤ ((rs.map Record.productName).dedup).length →
      (top_products rs).length = 10) ∧
    (((rs.map Record.productName).dedup).length < 10 →
      ((top_products rs).map Prod.fst).Perm
        ((rs.map Record.productName).dedup)) := by
  have hlen : (List.insertionSort salesDesc
      (groupSum (· ≤ ·) Record.productName Record.sales rs)).length =
      ((rs.map Record.productName).dedup).length := by
    rw [List.length_insertionSort, groupSum, List.length_map,
      List.length_insertionSort]
  refine ⟨?_, ?_, ?_⟩
  · exact List.Pairwise.sublist (List.take_sublist _ _)
      (List.sorted_insertionSort salesDesc _)
  · intro h10
    rw [top_products, List.length_take, hlen]
    omega
  · intro hlt
    rw [top_products, List.take_of_length_le (by rw [hlen]; omega)]
    have p1 : ((groupSum (· ≤ ·) Record.productName Record.sales rs).map
        Prod.fst).Perm ((rs.map Record.productName).dedup) := by
      rw [groupSum_map_fst]
      exact List.perm_insertionSort _ _
    exact ((List.perm_insertionSort salesDesc _).map Prod.fst).trans p1

/-- C5 witness: 12 distinct products give exactly 10 rows; 3 distinct
products give one row per product. -/
theorem top_products_witness :
    (10 ≤ ((sampleProducts.map Record.productName).dedup).length ∧
      (top_products sampleProducts).length = 10) ∧
    (((fewProducts.map Record.productName).dedup).length < 10 ∧
      ((top_products fewProducts).map Prod.fst).Perm
        ((fewProducts.map Record.productName).dedup)) :=
  ⟨⟨by decide, (top_products_spec sampleProducts).2.1 (by decide)⟩,
   ⟨by decide, (top_products_spec fewProducts).2.2 (by decide)⟩⟩

/-- C6: with fewer than 24 monthly observations the decomposition step
fails, the error propagates uncaught (the construction phase returns the
error), and no page is served. -/
theorem insufficient_data_fails (input : List RawRecord)
    (h : (salesSeries (clean input)).length < 24) :
    runScript input = .error decompErr ∧ servedPage input = none := by
  have h24 : (salesSeries (clean input)).length < 2 * 12 := by omega
  have hdec : seasonal_decompose (salesSeries (clean input)) =
      .error decompErr := by
    rw [seasonal_decompose, if_pos h24]
  constructor
  · rw [runScript, hdec]
  · rw [servedPage, runScript, hdec]
    rfl

/-- C6 witness: the empty input table has a 0-month series, the run fails
and nothing is served. -/
theorem insufficient_data_fails_witness :
    runScript [] = .error decompErr ∧ servedPage [] = none :=
  insufficient_data_fails [] (by decide)

/-- C10: the construction phase is deterministic — equal input tables give
equal cleaned records, equal monthly aggregates, equal decomposition
results, and equal dashboards (the embedding is a pure function of the
input table: no randomness, time, or environment enters lines 9-146). -/
theorem pipeline_deterministic (t1 t2 : List RawRecord) (h : t1 = t2) :
    clean t1 = clean t2 ∧
    df_monthly_sales (clean t1) = df_monthly_sales (clean t2) ∧
    seasonal_decompose (salesSeries (clean t1)) =
      seasonal_decompose (salesSeries (clean t2)) ∧
    runScript t1 = runScript t2 ∧ servedPage t1 = servedPage t2 := by
  subst h
  exact ⟨rfl, rfl, rfl, rfl, rfl⟩

/-- C10 witness: two runs on the sample fixture table agree. -/
theorem pipeline_deterministic_witness :
    clean sampleInput = clean sampleInput ∧
    df_monthly_sales (clean sampleInput) = df_monthly_sales (clean sampleInput) ∧
    seasonal_decompose (salesSeries (clean sampleInput)) =
      seasonal_decompose (salesSeries (clean sampleInput)) ∧
    runScript sampleInput = runScript sampleInput ∧
    servedPage sampleInput = servedPage sampleInput :=
  pipeline_deterministic sampleInput sampleInput rfl

/-- C1: the decomposition components are aligned over the monthly index
(settled by the C2 theorem), but the presentation stage is NOT: the trend
figure takes the LAST `len(trend)` dates
(`df_monthly_sales['Date'][len(df_monthly_sales)-len(trend):]`, positions
12..L-1) as its x-axis while the trend values sit at index positions
6..L-7, so the rendered pairs differ from the correctly aligned pairs —
shown here on the 24-month fixture, where the dashboard built by the
script pairs the trend values with the dates at positions 12..23 instead
of 6..17. -/
theorem trend_plot_misaligned :
    (runScript sampleInput).toOption.map Dashboard.figTrendComp =
      some (componentPlotData (datesSeries (clean sampleInput))
        (trendSeries (salesSeries (clean sampleInput)))) ∧
    componentPlotData (datesSeries (clean sampleInput))
        (trendSeries (salesSeries (clean sampleInput))) ≠
      (trendSeries (salesSeries (clean sampleInput))).map
        (fun p => ((datesSeries (clean sampleInput)).getD p.1 ⟨0, 0, 0⟩, p.2)) := by
  constructor
  · rfl
  · decide

end Superstore
